import Mathlib

/-!
Verification of the voice-orchestration core (`07-voice-orchestration/voice.py`).

A shallow embedding, in Lean 4, of the parts of `voice.py` that the
specification's claims are about:

* `AudioPlayerAsync` — the playback buffer (queue of PCM chunks, lock-protected
  pull callback, `add_data`, `stop`);
* the receive-and-dispatch loop `receive_audio_and_playback`;
* the coordinator in `AgentVoice.connect` (three tasks raced with
  `asyncio.wait(..., return_when=FIRST_COMPLETED)` followed by the cancel and
  teardown steps);
* the connection client `AsyncAzureVoiceLive` (`__init__` credential
  resolution, `connect` URL/header construction);
* the JSON wire serialization used by `AsyncVoiceLiveSessionResource.update`
  (`json.dumps` / `json.loads`, modelled by a verified printer/parser pair).

PCM samples are modelled as `Int` (no arithmetic is performed on them, so no
modular reduction is needed); byte-level base64 decoding is an external
collaborator and chunks enter the model already decoded, as `List Int`.
-/

namespace VoiceLive

/-! ## AudioPlayerAsync (`voice.py` lines 212-256)

State: `queue` is the list of pending PCM chunks (`self.queue`), `playing`
the `self.playing` flag.  The sounddevice `OutputStream` itself is an external
collaborator; `start`/`stop` toggle the flag.  All queue mutation in the
source happens under `self.lock`, so each method is one atomic step here. -/

structure AudioPlayerAsync where
  queue : List (List Int)
  playing : Bool
deriving Repr, DecidableEq

/-- Initial player state (`AudioPlayerAsync.__init__`): empty queue, not playing. -/
def AudioPlayerAsync.init : AudioPlayerAsync := ⟨[], false⟩

/-- `AudioPlayerAsync.add_data`: append the decoded chunk to the queue tail and
start the stream if idle (`self.playing` becomes true either way). -/
def AudioPlayerAsync.add_data (s : AudioPlayerAsync) (chunk : List Int) : AudioPlayerAsync :=
  { queue := s.queue ++ [chunk]
    playing := if ¬ s.playing then true else s.playing }

/-- `AudioPlayerAsync.stop`: clear the queue under the lock, clear the playing
flag, halt the stream. -/
def AudioPlayerAsync.stop (s : AudioPlayerAsync) : AudioPlayerAsync :=
  { queue := [], playing := false }

/-- The `while` loop inside `AudioPlayerAsync.callback`:

    data = np.empty(0)
    while len(data) < frames and len(self.queue) > 0:
        item = self.queue.pop(0)
        frames_needed = frames - len(data)
        data = np.concatenate((data, item[:frames_needed]))
        if len(item) > frames_needed:
            self.queue.insert(0, item[frames_needed:])

`data` is the accumulator, `queue` the current queue; returns the drained
data and the remaining queue. -/
def drainLoop (frames : Nat) (data : List Int) (queue : List (List Int)) :
    List Int × List (List Int) :=
  if h : data.length < frames ∧ queue ≠ [] then
    match queue with
    | [] => (data, [])
    | item :: rest =>
      let needed := frames - data.length
      let data' := data ++ item.take needed
      let queue' := if needed < item.length then item.drop needed :: rest else rest
      drainLoop frames data' queue'
  else
    (data, queue)
termination_by (frames - data.length, queue.length)
decreasing_by
  simp only [List.length_append, List.length_take, List.length_cons]
  by_cases hitem : item = []
  · subst hitem
    simp only [List.length_nil, Nat.min_zero, Nat.add_zero, Nat.not_lt_zero, dite_false]
    exact Prod.Lex.right _ (Nat.lt_succ_self _)
  · have hpos : 0 < item.length := List.length_pos.mpr hitem
    exact Prod.Lex.left _ _ (by omega)

/-- `AudioPlayerAsync.callback`: drain up to `frames` samples from the queue,
zero-padding when the queue is exhausted; the written output and the updated
player state. -/
def AudioPlayerAsync.callback (s : AudioPlayerAsync) (frames : Nat) :
    List Int × AudioPlayerAsync :=
  let r := drainLoop frames [] s.queue
  (r.1 ++ List.replicate (frames - r.1.length) 0, { s with queue := r.2 })

/-- Push a whole sequence of chunks with `add_data`, in order. -/
def AudioPlayerAsync.pushAll (s : AudioPlayerAsync) (chunks : List (List Int)) :
    AudioPlayerAsync :=
  chunks.foldl AudioPlayerAsync.add_data s

theorem AudioPlayerAsync.pushAll_queue (s : AudioPlayerAsync) (chunks : List (List Int)) :
    (s.pushAll chunks).queue = s.queue ++ chunks := by
  induction chunks generalizing s with
  | nil => simp [pushAll]
  | cons c cs ih =>
    simp [pushAll, List.foldl_cons] at *
    rw [ih]
    simp [add_data]

/-- Core drain invariant: the loop returns the accumulator extended with the
first `frames - data.length` samples of the flattened queue, and the remaining
queue flattens to the rest. -/
theorem drainLoop_spec (frames : Nat) (data : List Int) (queue : List (List Int)) :
    (drainLoop frames data queue).1 =
        data ++ queue.flatten.take (frames - data.length) ∧
      (drainLoop frames data queue).2.flatten =
        queue.flatten.drop (frames - data.length) := by
  induction data, queue using drainLoop.induct frames with
  | case1 data h1 h2 =>
    exact absurd rfl h1.2
  | case2 data item rest h needed data' queue' h2 ih =>
    obtain ⟨ih1, ih2⟩ := ih
    rw [drainLoop]
    rw [dif_pos h]
    have hneed : 0 < needed := by simp only [needed]; omega
    by_cases hsplit : needed < item.length
    · have hq' : queue' = item.drop needed :: rest := by
        simp only [queue', dif_pos hsplit]
      have hd' : data'.length = frames := by
        simp only [data', List.length_append, List.length_take, needed]
        omega
      constructor
      · show (drainLoop frames data' queue').1 = _
        rw [ih1, hd']
        simp only [Nat.sub_self, List.take_zero, List.append_nil, data']
        rw [List.flatten_cons, List.take_append_eq_append_take]
        have h0 : needed - item.length = 0 := by omega
        simp [needed, h0]
      · show (drainLoop frames data' queue').2.flatten = _
        rw [ih2, hd']
        simp only [Nat.sub_self, List.drop_zero]
        rw [hq', List.flatten_cons, List.flatten_cons,
          List.drop_append_eq_append_drop]
        have h0 : needed - item.length = 0 := by omega
        simp [needed, h0]
    · have hq' : queue' = rest := by simp only [queue', dif_neg hsplit]
      have htake : item.take needed = item := List.take_of_length_le (by omega)
      have hlen : data'.length = data.length + item.length := by
        simp [data', htake]
      constructor
      · show (drainLoop frames data' queue').1 = _
        rw [ih1, hlen]
        simp only [data', htake, hq']
        rw [List.flatten_cons, List.take_append_eq_append_take]
        simp only [needed] at htake
        rw [htake, List.append_assoc, Nat.sub_sub]
      · show (drainLoop frames data' queue').2.flatten = _
        rw [ih2, hlen, hq']
        rw [List.flatten_cons, List.drop_append_eq_append_drop]
        have hd0 : item.drop needed = [] := List.drop_eq_nil_of_le (by omega)
        have : frames - (data.length + item.length) = needed - item.length := by
          simp only [needed]; omega
        rw [this]
        simp [needed, hd0]
  | case3 data queue h =>
    rw [drainLoop, dif_neg h]
    rcases Decidable.not_and_iff_or_not.mp h with h1 | h2
    · have h0 : frames - data.length = 0 := by omega
      simp [h0]
    · have : queue = [] := Decidable.not_not.mp h2
      subst this
      simp

/-- **C2.** For every sequence of chunks pushed into the `AudioPlayerAsync`
queue (total sample length `L = chunks.flatten.length`) and every pull-callback
request of `F = frames` samples: the callback writes exactly the first `F`
samples of the concatenation of the pushed chunks followed, when `F > L`, by
`F - L` zero-valued padding samples, and leaves exactly the remaining `L - F`
samples (in order) at the head of the queue.  When `F ≤ L` the padding term
`List.replicate (F - L) 0` is empty, so the two conditional clauses of the
claim are both instances of this equation. -/
theorem C2_callback_take_drop (chunks : List (List Int)) (frames : Nat) :
    ((AudioPlayerAsync.init.pushAll chunks).callback frames).1 =
        chunks.flatten.take frames ++
          List.replicate (frames - chunks.flatten.length) 0 ∧
      ((AudioPlayerAsync.init.pushAll chunks).callback frames).2.queue.flatten =
        chunks.flatten.drop frames := by
  have hq : (AudioPlayerAsync.init.pushAll chunks).queue = chunks := by
    rw [AudioPlayerAsync.pushAll_queue]
    rfl
  obtain ⟨h1, h2⟩ := drainLoop_spec frames [] chunks
  simp only [List.nil_append, List.length_nil, Nat.sub_zero] at h1 h2
  have hcount : frames - (chunks.flatten.take frames).length =
      frames - chunks.flatten.length := by
    rw [List.length_take]
    omega
  constructor
  · simp only [AudioPlayerAsync.callback, hq]
    rw [h1, hcount]
  · simp only [AudioPlayerAsync.callback, hq]
    rw [h2]

/-- **C5.** Immediately after `stop()` the playback queue is empty, and a
`push` (`add_data`) performed right after `stop()` leaves the queue holding
exactly the newly pushed chunk — so no sample pushed before the `stop()` can
ever reach the callback afterwards. -/
theorem C5_stop_clears_queue (s : AudioPlayerAsync) (d : List Int) :
    s.stop.queue = [] ∧ (s.stop.add_data d).queue = [d] := by
  constructor
  · rfl
  · rfl

/-! ## receive_audio_and_playback (`voice.py` lines 284-315)

The loop body is

    while True:
        transcript = ""
        async for raw_event in connection:
            try:
                event = json.loads(raw_event)
            except json.JSONDecodeError as e:
                logger.error(f"Failed to decode event: {e}")
                break
            if event.get("type") == "response.audio.delta": ...
            elif event.get("type") == "response.audio_transcript.delta": ...
            elif event.get("type") == "response.done": ...

Each raw, possibly unparseable inbound payload is modelled by its decode
outcome: `malformed` stands for a payload `json.loads` rejects, the other
constructors for the decoded events the dispatch distinguishes (`other` is
any well-formed event of an unrecognised type).  `audio.delta` chunks enter
already base64-decoded (decoding is an external collaborator).

A `break` (on `response.done` and on a decode failure alike) only leaves the
inner `async for`; the outer `while True` immediately restarts it with
`transcript = ""`, and iterating the connection again continues with the next
not-yet-consumed message of the same websocket.  `processEvents` is therefore
the sequential fold of the per-event effect in which `done` and `malformed`
reset the accumulator and processing continues with the next event. -/

/-- One inbound payload of the receive loop, by decode outcome. -/
inductive RecvEvent where
  | audioDelta (itemId : Option String) (chunk : List Int)
  | transcriptDelta (text : String)
  | done
  | other (ty : String)
  | malformed
deriving Repr, DecidableEq

/-- State of the receive-and-dispatch activity: `lastAudioItemId` mirrors
`last_audio_item_id`, `transcript` the accumulator, `player` the
`AudioPlayerAsync` instance, and `printed` the transcripts emitted (printed)
at each `response.done`. -/
structure RecvState where
  lastAudioItemId : Option String
  transcript : String
  player : AudioPlayerAsync
  printed : List String
deriving Repr, DecidableEq

/-- Initial receive state (`last_audio_item_id = None`, fresh player,
`transcript` initialised to `""` by the first outer-loop iteration). -/
def RecvState.init : RecvState :=
  ⟨none, "", AudioPlayerAsync.init, []⟩

/-- The effect of one decoded (or undecodable) inbound payload on the receive
state, exactly as dispatched by the `if/elif` chain; `done` prints the
accumulated transcript and (with the outer loop restart) resets it, and a
decode failure likewise restarts the inner loop with a fresh accumulator. -/
def stepEvent (s : RecvState) : RecvEvent → RecvState
  | .audioDelta itemId chunk =>
      { s with
        lastAudioItemId :=
          if itemId ≠ s.lastAudioItemId then itemId else s.lastAudioItemId
        player := s.player.add_data chunk }
  | .transcriptDelta t => { s with transcript := s.transcript ++ t }
  | .done => { s with printed := s.printed ++ [s.transcript], transcript := "" }
  | .other _ => s
  | .malformed => { s with transcript := "" }

/-- The receive activity over a finite inbound sequence: the fold of
`stepEvent`.  Totality of this fold is the embedding of the fact that neither
`response.done` nor a decode failure terminates the activity. -/
def processEvents (s : RecvState) : List RecvEvent → RecvState
  | [] => s
  | e :: es => processEvents (stepEvent s e) es

theorem processEvents_append (s : RecvState) (es1 es2 : List RecvEvent) :
    processEvents s (es1 ++ es2) = processEvents (processEvents s es1) es2 := by
  induction es1 generalizing s with
  | nil => rfl
  | cons e es ih =>
    simp only [List.cons_append, processEvents]
    exact ih _

/-- Prepending previously printed transcripts commutes with processing: the
loop only ever appends to `printed` and never reads it. -/
theorem processEvents_printed_mono (es : List RecvEvent) :
    ∀ (l : Option String) (t : String) (pl : AudioPlayerAsync) (pr p : List String),
      processEvents ⟨l, t, pl, p ++ pr⟩ es =
        { processEvents ⟨l, t, pl, pr⟩ es with
          printed := p ++ (processEvents ⟨l, t, pl, pr⟩ es).printed } := by
  induction es with
  | nil =>
    intro l t pl pr p
    rfl
  | cons e es ih =>
    intro l t pl pr p
    cases e with
    | audioDelta itemId chunk =>
      simp only [processEvents, stepEvent]
      exact ih _ _ _ _ p
    | transcriptDelta t2 =>
      simp only [processEvents, stepEvent]
      exact ih _ _ _ _ p
    | done =>
      simp only [processEvents, stepEvent]
      rw [List.append_assoc]
      exact ih _ _ _ _ p
    | other ty =>
      simp only [processEvents, stepEvent]
      exact ih _ _ _ _ p
    | malformed =>
      simp only [processEvents, stepEvent]
      exact ih _ _ _ _ p

/-- **C3.** End-to-end scenario: three `response.audio.delta` events with item
id `"A"` carrying chunks of 100, 200 and 300 samples, then two
`response.audio_transcript.delta` fragments `"Hel"` and `"lo"`, then
`response.done`.  The playback queue receives exactly the three chunks in that
order, the transcript emitted at `response.done` is `"Hello"`, and the
accumulator is empty immediately afterward. -/
theorem C3_scenario :
    processEvents RecvState.init
        [RecvEvent.audioDelta (some "A") (List.replicate 100 1),
         RecvEvent.audioDelta (some "A") (List.replicate 200 2),
         RecvEvent.audioDelta (some "A") (List.replicate 300 3),
         RecvEvent.transcriptDelta "Hel",
         RecvEvent.transcriptDelta "lo",
         RecvEvent.done] =
      { lastAudioItemId := some "A"
        transcript := ""
        player :=
          { queue :=
              [List.replicate 100 1, List.replicate 200 2, List.replicate 300 3]
            playing := true }
        printed := ["Hello"] } := by
  rfl

/-- **C4.** A malformed (non-JSON-parseable) payload does not terminate the
receive activity: processing an inbound sequence with a malformed payload in
the middle equals processing the prefix, resetting the transcript accumulator,
and then processing every event after the malformed one exactly as usual — in
particular all subsequent audio deltas are still enqueued for playback,
transcript deltas still accumulated, and `response.done` still handled. -/
theorem C4_malformed_continues (s : RecvState) (es1 es2 : List RecvEvent) :
    processEvents s (es1 ++ RecvEvent.malformed :: es2) =
      processEvents { processEvents s es1 with transcript := "" } es2 := by
  rw [processEvents_append]
  rfl

/-- **C9.** A malformed payload arriving mid-turn discards the transcript
fragments accumulated so far in that turn: the accumulator is reset to `""`
before the next event is processed, and every transcript emitted after the
malformed payload is produced by processing the later events from an empty
accumulator — fragments from before the malformed payload appear in none of
them. -/
theorem C9_malformed_resets_transcript (s : RecvState) (es1 es2 : List RecvEvent) :
    (processEvents s (es1 ++ [RecvEvent.malformed])).transcript = "" ∧
      (processEvents s (es1 ++ RecvEvent.malformed :: es2)).printed =
        (processEvents s es1).printed ++
          (processEvents
            { processEvents s es1 with transcript := "", printed := [] }
            es2).printed := by
  constructor
  · rw [processEvents_append]
    rfl
  · rw [processEvents_append]
    show (processEvents
        { processEvents s es1 with transcript := "" } es2).printed = _
    have h := processEvents_printed_mono es2
      (processEvents s es1).lastAudioItemId "" (processEvents s es1).player
      [] (processEvents s es1).printed
    simp only [List.append_nil] at h
    rw [h]

/-! ## The coordinator in `AgentVoice.connect` (`voice.py` lines 402-411)

    send_task = asyncio.create_task(listen_and_send_audio(connection))
    receive_task = asyncio.create_task(receive_audio_and_playback(connection))
    keyboard_task = asyncio.create_task(read_keyboard_and_quit())
    await asyncio.wait([...], return_when=asyncio.FIRST_COMPLETED)
    send_task.cancel()
    receive_task.cancel()
    (async-with exit: connection closed)

The three concurrent activities and the sequence of supervisor actions the
coordinator performs once the first of them completes.  The cancel statements
are unconditional and fixed, so the action trace depends on the winner only
through the recorded wait step. -/

/-- The three activities raced by `AgentVoice.connect`. -/
inductive VTask where
  | send
  | receive
  | keyboard
deriving Repr, DecidableEq, Fintype

/-- A supervisor action of the coordinator tail of `AgentVoice.connect`. -/
inductive CoordAction where
  | waitFirstCompleted (winner : VTask)
  | cancel (t : VTask)
  | closeConnection
deriving Repr, DecidableEq

/-- The exact action sequence `AgentVoice.connect` performs from the
`asyncio.wait` onwards, given which activity completed first: wait for any one,
cancel `send_task`, cancel `receive_task`, then the `async with` exit closes
the connection. -/
def coordinatorTrace (winner : VTask) : List CoordAction :=
  [CoordAction.waitFirstCompleted winner,
   CoordAction.cancel VTask.send,
   CoordAction.cancel VTask.receive,
   CoordAction.closeConnection]

/-- The set of tasks the coordinator cancels after the race, in order. -/
def cancelledTasks (winner : VTask) : List VTask :=
  (coordinatorTrace winner).filterMap fun a =>
    match a with
    | CoordAction.cancel t => some t
    | _ => none

/-- **C1 (counterexample).** The claim states that whichever activity
completes first, the other two are both cancelled.  Concrete refuting input:
when the capture-and-send activity completes first, the user-cancellation
watch (`keyboard_task`) is one of the other two, yet the coordinator never
cancels it — only `send_task.cancel()` and `receive_task.cancel()` are ever
executed. -/
theorem C1_counterexample :
    (VTask.keyboard ≠ VTask.send ∧
        VTask.keyboard ∉ cancelledTasks VTask.send) ∧
      ¬ ∀ w t : VTask, t ≠ w → t ∈ cancelledTasks w := by
  decide

/-- **C1 (amended).** Whenever the first of the three activities completes,
the coordinator always cancels exactly the capture-and-send and
receive-and-dispatch tasks (a no-op for one that already finished), never the
user-cancellation watch, and performs the teardown (connection close) exactly
once before returning — regardless of which activity completed first. -/
theorem C1_cancel_and_single_teardown (w : VTask) :
    cancelledTasks w = [VTask.send, VTask.receive] ∧
      (coordinatorTrace w).count CoordAction.closeConnection = 1 := by
  cases w <;> exact ⟨rfl, rfl⟩

/-! ## AsyncAzureVoiceLive (`voice.py` lines 122-207)

`__init__` resolves the endpoint and credentials (with environment-variable
fallback, modelled by explicit `envEndpoint`/`envApiKey` arguments), raising
`ValueError` — modelled by `Except.error` — on missing or duplicated
credentials; `connect` refuses a second open connection, builds the
`wss://` URL by f-string interpolation followed by
`url.replace("https://", "wss://")`, and chooses bearer or api-key headers.
Python truthiness of optional strings (`if api_key and ...`, `if not model`,
`agent_id or self._agent_id`, `if self._token`) is modelled by `pyTruthy`;
f-string interpolation of a possibly-`None` string by `pyStr`
(`f"{None}" = "None"`). -/

/-- Python truthiness of an optional string: `None` and `""` are falsy. -/
def pyTruthy : Option String → Bool
  | none => false
  | some s => !(s == "")

/-- Python f-string interpolation of an optional string: `f"{None}" = "None"`. -/
def pyStr : Option String → String
  | none => "None"
  | some s => s

/-- Python `a or b` on optional strings: the first operand when truthy,
otherwise the second. -/
def pyOr (a b : Option String) : Option String :=
  if pyTruthy a then a else b

/-- A token credential together with the token string its `get_token` call
yields (the identity provider itself is an external collaborator).  As a
Python object it is always truthy. -/
structure TokenCredential where
  token : String
deriving Repr, DecidableEq

/-- The `AsyncVoiceLiveConnection` handle as built by `connect`: the target
URL and the additional headers (header values are optional strings because
`{"api-key": self._api_key}` can carry `None`). -/
structure ConnectionInfo where
  url : List Char
  headers : List (String × Option String)
deriving Repr, DecidableEq

/-- The fields of an `AsyncAzureVoiceLive` instance after `__init__`. -/
structure VoiceLiveClient where
  apiKey : Option String
  azureEndpoint : String
  projectName : Option String
  agentId : Option String
  apiVersion : Option String
  azureAdTokenCredential : Option TokenCredential
  foundryCredential : Option TokenCredential
  connection : Option ConnectionInfo
  token : Option String
  foundryToken : Option String
deriving Repr, DecidableEq

/-- Endpoint resolution (`voice.py` lines 134-135): the explicit argument,
falling back to the `AZURE_VOICE_LIVE_ENDPOINT` environment variable. -/
def resolvedEndpoint (azureEndpoint envEndpoint : Option String) : Option String :=
  match azureEndpoint with
  | none => envEndpoint
  | some e => some e

/-- API-key resolution (`voice.py` lines 142-143): the environment variable
`AZURE_VOICE_LIVE_API_KEY` is consulted only when neither an API key nor a
token credential was passed. -/
def effectiveKey (apiKey : Option String) (cred : Option TokenCredential)
    (envApiKey : Option String) : Option String :=
  if apiKey.isNone && cred.isNone then envApiKey else apiKey

/-- `AsyncAzureVoiceLive.__init__` (lines 123-164): endpoint resolution and
check, api-key fallback, missing-credentials check (`api_key is None and
azure_ad_token_credential is None`), duplicate-credentials check (`api_key
and azure_ad_token_credential`, i.e. Python truthiness), then field
initialisation including eager token acquisition. -/
def initClient (azureEndpoint apiVersion apiKey : Option String)
    (cred foundryCred : Option TokenCredential)
    (projectName agentId envEndpoint envApiKey : Option String) :
    Except String VoiceLiveClient :=
  match resolvedEndpoint azureEndpoint envEndpoint with
  | none =>
    Except.error "Must provide the 'azure_endpoint' argument, or the 'AZURE_VOICE_LIVE_ENDPOINT' environment variable"
  | some ep =>
    let key := effectiveKey apiKey cred envApiKey
    if key.isNone && cred.isNone then
      Except.error "Missing credentials. Please pass one of 'api_key', 'azure_ad_token_credential', or the 'AZURE_VOICE_LIVE_API_KEY' environment variable."
    else if pyTruthy key && cred.isSome then
      Except.error "Duplicating credentials. Please pass one of 'api_key' and 'azure_ad_token_credential'"
    else
      Except.ok
        { apiKey := key
          azureEndpoint := ep
          projectName := projectName
          agentId := agentId
          apiVersion := apiVersion
          azureAdTokenCredential := cred
          foundryCredential := foundryCred
          connection := none
          token := match cred with
            | some c => some c.token
            | none => none
          foundryToken := match foundryCred with
            | some c => some c.token
            | none => none }

/-- Python `s.rstrip('/')`: remove trailing slashes. -/
def rstripSlashes (s : List Char) : List Char :=
  (s.reverse.dropWhile fun c => c == '/').reverse

/-- Does `pat` occur at the head of `s`? -/
def startsWithL : List Char → List Char → Bool
  | [], _ => true
  | _ :: _, [] => false
  | p :: ps, c :: cs => p == c && startsWithL ps cs

/-- Python `s.replace(old, new)` for a non-empty `old`: replace every
non-overlapping occurrence, scanning left to right and continuing after each
replacement.  (For an empty `old` Python would insert `new` between all
characters; the only use here replaces `"https://"`.) -/
def pyReplace (s pat rep : List Char) : List Char :=
  match s with
  | [] => []
  | c :: rest =>
    if h : (!pat.isEmpty && startsWithL pat (c :: rest)) = true then
      rep ++ pyReplace ((c :: rest).drop pat.length) pat rep
    else
      c :: pyReplace rest pat rep
termination_by s.length
decreasing_by
  · have hlen : 0 < pat.length := by
      cases pat with
      | nil => simp at h
      | cons a as => simp
    simp only [List.length_drop, List.length_cons]
    omega
  · simp only [List.length_cons]
    omega

/-- Does `pat` occur anywhere in `s`? -/
def hasOccurrence (pat : List Char) : List Char → Bool
  | [] => false
  | c :: rest => startsWithL pat (c :: rest) || hasOccurrence pat rest

theorem startsWithL_self_append (pat tail : List Char) :
    startsWithL pat (pat ++ tail) = true := by
  induction pat with
  | nil => rfl
  | cons p ps ih => simp [startsWithL, ih]

/-- `pyReplace` is the identity on strings without an occurrence of the
pattern. -/
theorem pyReplace_no_occurrence (pat rep : List Char) :
    ∀ s : List Char, hasOccurrence pat s = false → pyReplace s pat rep = s := by
  intro s
  induction s with
  | nil =>
    intro _
    rw [pyReplace]
  | cons c rest ih =>
    intro h
    simp only [hasOccurrence, Bool.or_eq_false_iff] at h
    rw [pyReplace]
    rw [dif_neg (by simp [h.1])]
    rw [ih h.2]

/-- `pyReplace` rewrites a pattern occurrence at the head. -/
theorem pyReplace_head (pat rep tail : List Char) (hpat : pat ≠ []) :
    pyReplace (pat ++ tail) pat rep = rep ++ pyReplace tail pat rep := by
  match pat, hpat with
  | p :: ps, _ =>
    have hsw : startsWithL (p :: ps) (p :: (ps ++ tail)) = true := by
      have h := startsWithL_self_append (p :: ps) tail
      rwa [List.cons_append] at h
    rw [List.cons_append, pyReplace]
    rw [dif_pos (by simp [hsw])]
    congr 1
    rw [← List.cons_append, List.drop_left]

/-- Everything the `connect` f-string appends after the endpoint (`voice.py`
line 196): protocol version, model, effective agent id, project name, foundry
access token, and the Entra bearer token, each interpolated with Python
`str()` semantics. -/
def connectUrlQuery (apiVersion : Option String) (modelName : String)
    (agentIdEff projectName foundryToken token : Option String) : List Char :=
  "/voice-agent/realtime?api-version=".toList ++ (pyStr apiVersion).toList
    ++ "&model=".toList ++ modelName.toList
    ++ "&agent_id=".toList ++ (pyStr agentIdEff).toList
    ++ "&agent-project-name=".toList ++ (pyStr projectName).toList
    ++ "&agent_access_token=".toList ++ (pyStr foundryToken).toList
    ++ "&Authorization=Bearer+".toList ++ (pyStr token).toList

/-- The connection URL of `AsyncAzureVoiceLive.connect` (lines 196-197):
the f-string over the slash-stripped endpoint followed by
`url.replace("https://", "wss://")`. -/
def buildConnectUrl (endpoint : String) (apiVersion : Option String)
    (modelName : String) (agentIdEff projectName foundryToken token : Option String) :
    List Char :=
  pyReplace
    (rstripSlashes endpoint.toList ++
      connectUrlQuery apiVersion modelName agentIdEff projectName foundryToken token)
    "https://".toList "wss://".toList

/-- `AsyncAzureVoiceLive.connect` (lines 185-207): refuse a second connection,
require a truthy model name, build the URL and headers (bearer token when
`self._token` is truthy, otherwise the api-key header), store and return the
new connection.  `requestId` stands for the freshly drawn `uuid4`. -/
def connectClient (s : VoiceLiveClient) (modelName : Option String)
    (agentId : Option String) (requestId : String) :
    Except String (VoiceLiveClient × ConnectionInfo) :=
  if s.connection.isSome then
    Except.error "Already connected to the Azure Voice Agent service."
  else if !pyTruthy modelName then
    Except.error "Model name is required."
  else
    match modelName with
    | none => Except.error "Model name is required."
    | some m =>
      let url := buildConnectUrl s.azureEndpoint s.apiVersion m
        (pyOr agentId s.agentId) s.projectName s.foundryToken s.token
      let authHeader : List (String × Option String) :=
        if pyTruthy s.token then
          [("Authorization", some ("Bearer " ++ pyStr s.token))]
        else
          [("api-key", s.apiKey)]
      let conn : ConnectionInfo :=
        { url := url
          headers := ("x-ms-client-request-id", some requestId) :: authHeader }
      Except.ok ({ s with connection := some conn }, conn)

/-- **C6 (counterexample).** The claim states the constructor fails whenever
the API key and the token credential are both present.  Concrete refuting
input: an empty-string API key together with a token credential — both are
supplied, yet Python's truthiness test `if api_key and
azure_ad_token_credential` sees the empty string as falsy, neither `raise`
fires, and construction succeeds. -/
theorem C6_counterexample :
    (initClient (some "https://example.cognitiveservices.azure.com") none
        (some "") (some ⟨"tok"⟩) none none none none none).isOk = true := by
  rfl

/-- **C6 (amended).** Provided the endpoint resolves, construction fails
(with a `ValueError` modelling the configuration error, and before any
connection attempt: `initClient` never builds a `ConnectionInfo`) if and only
if, after environment-variable fallback, the API key and the credential are
both absent, or the credential is present and the API key is present and
non-empty (Python truthiness).  When exactly one is supplied the constructor
succeeds. -/
theorem C6_credential_validation (azureEndpoint apiVersion apiKey : Option String)
    (cred foundryCred : Option TokenCredential)
    (projectName agentId envEndpoint envApiKey : Option String) (ep : String)
    (hep : resolvedEndpoint azureEndpoint envEndpoint = some ep) :
    ((initClient azureEndpoint apiVersion apiKey cred foundryCred projectName
        agentId envEndpoint envApiKey).isOk = false ↔
      (effectiveKey apiKey cred envApiKey = none ∧ cred = none) ∨
        (pyTruthy (effectiveKey apiKey cred envApiKey) = true ∧ cred ≠ none)) := by
  unfold initClient
  rw [hep]
  by_cases h1 : ((effectiveKey apiKey cred envApiKey).isNone && cred.isNone) = true
  · have hkc : effectiveKey apiKey cred envApiKey = none ∧ cred = none := by
      simpa [Option.isNone_iff_eq_none] using h1
    obtain ⟨hk, hc⟩ := hkc
    subst hc
    simp [hk, Except.isOk, Except.toBool]
  · rw [Bool.not_eq_true] at h1
    by_cases h2 : (pyTruthy (effectiveKey apiKey cred envApiKey) && cred.isSome) = true
    · have h2' : pyTruthy (effectiveKey apiKey cred envApiKey) = true ∧ cred ≠ none := by
        simpa [Option.isSome_iff_ne_none] using h2
      obtain ⟨c, rfl⟩ := Option.ne_none_iff_exists'.mp h2'.2
      simp [h1, h2'.1, Except.isOk, Except.toBool]
    · rw [Bool.not_eq_true] at h2
      simp only [h1, h2, Bool.false_eq_true, if_false, Except.isOk, Except.toBool]
      constructor
      · intro hfalse
        exact absurd hfalse (by simp)
      · rintro (⟨hk, hc⟩ | ⟨hk, hc⟩)
        · rw [hk, hc] at h1
          simp at h1
        · have hs : cred.isSome = true := Option.isSome_iff_ne_none.mpr hc
          rw [hk, hs] at h2
          simp at h2

/-- **C6 witness**: with exactly one credential supplied (an API key) and the
endpoint given, construction succeeds — both disjuncts of the failure
condition are false. -/
theorem C6_credential_validation_witness :
    resolvedEndpoint (some "https://e") none = some "https://e" ∧
      ((initClient (some "https://e") none (some "k") none none none none none
          none).isOk = false ↔
        (effectiveKey (some "k") none none = none ∧
            (none : Option TokenCredential) = none) ∨
          (pyTruthy (effectiveKey (some "k") none none) = true ∧
            (none : Option TokenCredential) ≠ none)) :=
  ⟨rfl, C6_credential_validation (some "https://e") none (some "k") none none
    none none none none "https://e" rfl⟩

/-- **C7.** Per `AsyncAzureVoiceLive` instance at most one open connection
ever exists: `connect` called while a connection is already stored raises the
already-connected `ValueError` (returning an error leaves the instance
unchanged — the model mutates state only through the `ok` result), and a
successful `connect` is possible only from the no-connection state and
installs exactly the returned connection. -/
theorem C7_single_connection (s : VoiceLiveClient) (m a : Option String)
    (r : String) :
    (∀ c : ConnectionInfo, s.connection = some c →
        connectClient s m a r =
          Except.error "Already connected to the Azure Voice Agent service.") ∧
      (∀ (s' : VoiceLiveClient) (conn : ConnectionInfo),
        connectClient s m a r = Except.ok (s', conn) →
          s.connection = none ∧ s'.connection = some conn) := by
  constructor
  · intro c hc
    unfold connectClient
    rw [hc]
    rfl
  · intro s' conn h
    cases hc : s.connection with
    | some c =>
      unfold connectClient at h
      rw [hc] at h
      exact absurd h (by simp)
    | none =>
      refine ⟨rfl, ?_⟩
      unfold connectClient at h
      rw [hc] at h
      simp only [Option.isSome_none, Bool.false_eq_true, if_false] at h
      by_cases hm : (!pyTruthy m) = true
      · rw [if_pos hm] at h
        exact absurd h (by simp)
      · rw [if_neg hm] at h
        cases m with
        | none => exact absurd h (by simp)
        | some mv =>
          simp only [Except.ok.injEq, Prod.mk.injEq] at h
          rw [← h.1]
          exact congrArg some h.2

/-- **C7 witness**: a client already holding a connection; the second
`connect` fails with the already-connected error. -/
theorem C7_single_connection_witness :
    connectClient
        { apiKey := some "key"
          azureEndpoint := "https://example.cognitiveservices.azure.com"
          projectName := none
          agentId := none
          apiVersion := some "2025-05-01-preview"
          azureAdTokenCredential := none
          foundryCredential := none
          connection := some { url := [], headers := [] }
          token := none
          foundryToken := none }
        (some "gpt-4o") none "req-1" =
      Except.error "Already connected to the Azure Voice Agent service." :=
  (C7_single_connection _ (some "gpt-4o") none "req-1").1
    { url := [], headers := [] } rfl

/-- **C10.** When a token credential and a foundry credential are configured,
the URL produced by `connect` embeds the acquired bearer token as the query
parameter `Authorization=Bearer+<token>` and the foundry access token as the
query parameter `agent_access_token=<token>`, in plaintext — in addition to
carrying the bearer token in the `Authorization` request header.  The
hypotheses pin down the usual shape of the inputs: an `https://` endpoint
(already slash-stripped) and no further occurrence of `"https://"` in the
rest of the URL, so that the single `replace` rewrites only the scheme. -/
theorem C10_url_embeds_tokens (s : VoiceLiveClient) (m : String)
    (agentId : Option String) (req : String) (tok ftok : String)
    (hostTail : List Char) (hconn : s.connection = none) (hm : m ≠ "")
    (htok : s.token = some tok) (htokne : tok ≠ "")
    (hftok : s.foundryToken = some ftok)
    (hrs : rstripSlashes s.azureEndpoint.toList = "https://".toList ++ hostTail)
    (hnoocc : hasOccurrence "https://".toList
        (hostTail ++
          connectUrlQuery s.apiVersion m (pyOr agentId s.agentId) s.projectName
            (some ftok) (some tok)) = false) :
    ∃ (s' : VoiceLiveClient) (conn : ConnectionInfo),
      connectClient s (some m) agentId req = Except.ok (s', conn) ∧
        (∃ pre post, conn.url =
          pre ++ ("Authorization=Bearer+".toList ++ tok.toList) ++ post) ∧
        (∃ pre post, conn.url =
          pre ++ ("agent_access_token=".toList ++ ftok.toList) ++ post) ∧
        ("Authorization", some ("Bearer " ++ tok)) ∈ conn.headers := by
  have htruthy : pyTruthy (some m) = true := by
    simp [pyTruthy, hm]
  have htoktruthy : pyTruthy (some tok) = true := by
    simp [pyTruthy, htokne]
  have hurl : buildConnectUrl s.azureEndpoint s.apiVersion m (pyOr agentId s.agentId)
      s.projectName (some ftok) (some tok) =
        "wss://".toList ++
          (hostTail ++
            connectUrlQuery s.apiVersion m (pyOr agentId s.agentId) s.projectName
              (some ftok) (some tok)) := by
    unfold buildConnectUrl
    rw [hrs, List.append_assoc]
    rw [pyReplace_head _ _ _ (by simp)]
    rw [pyReplace_no_occurrence _ _ _ hnoocc]
  unfold connectClient
  rw [hconn, htok, hftok]
  simp only [Option.isSome_none, Bool.false_eq_true, if_false, htruthy, Bool.not_true,
    htoktruthy, if_true]
  refine ⟨_, _, rfl, ?_, ?_, ?_⟩
  · show ∃ pre post, buildConnectUrl s.azureEndpoint s.apiVersion m
        (pyOr agentId s.agentId) s.projectName (some ftok) (some tok) =
          pre ++ ("Authorization=Bearer+".toList ++ tok.toList) ++ post
    rw [hurl]
    unfold connectUrlQuery
    refine ⟨"wss://".toList ++ hostTail ++ "/voice-agent/realtime?api-version=".toList
      ++ (pyStr s.apiVersion).toList ++ "&model=".toList ++ m.toList
      ++ "&agent_id=".toList ++ (pyStr (pyOr agentId s.agentId)).toList
      ++ "&agent-project-name=".toList ++ (pyStr s.projectName).toList
      ++ "&agent_access_token=".toList ++ ftok.toList ++ "&".toList, [], ?_⟩
    have hsegsplit : ("&Authorization=Bearer+".toList : List Char) =
        "&".toList ++ "Authorization=Bearer+".toList := rfl
    rw [hsegsplit]
    simp [pyStr, List.append_assoc]
  · show ∃ pre post, buildConnectUrl s.azureEndpoint s.apiVersion m
        (pyOr agentId s.agentId) s.projectName (some ftok) (some tok) =
          pre ++ ("agent_access_token=".toList ++ ftok.toList) ++ post
    rw [hurl]
    unfold connectUrlQuery
    refine ⟨"wss://".toList ++ hostTail ++ "/voice-agent/realtime?api-version=".toList
      ++ (pyStr s.apiVersion).toList ++ "&model=".toList ++ m.toList
      ++ "&agent_id=".toList ++ (pyStr (pyOr agentId s.agentId)).toList
      ++ "&agent-project-name=".toList ++ (pyStr s.projectName).toList
      ++ "&".toList,
      "&Authorization=Bearer+".toList ++ tok.toList, ?_⟩
    have hsegsplit : ("&agent_access_token=".toList : List Char) =
        "&".toList ++ "agent_access_token=".toList := rfl
    rw [hsegsplit]
    simp [pyStr, List.append_assoc]
  · simp [pyStr]

/-! ## JSON serialization (`AsyncVoiceLiveSessionResource.update`, lines 71-81)

`update` builds `{"type": "session.update", "session": session, "event_id":
event_id}` and serializes it with `json.dumps` (default separators `", "` and
`": "`); the peer decodes with `json.loads`.  Both are external library
functions, modelled here by a JSON value type `JVal`, a printer `printJ`
matching the `json.dumps` output format, and a parser `parseJ` for that
format.  Numbers are exact decimals `mantissa × 10⁻ᵈ` (an `Int` mantissa and
a count `d` of fractional digits), covering the ints and the finitely
represented floats the session configuration contains, without IEEE
rounding concerns.  Strings are `List Char`; the printer escapes `"`, `\`
and control characters (as `\u00XX`), everything else verbatim. -/

/-- A JSON value: null, boolean, exact decimal number (`m × 10⁻ᵈ`), string,
array, or object with ordered members. -/
inductive JVal where
  | jnull
  | jbool (b : Bool)
  | jnum (m : Int) (d : Nat)
  | jstr (s : List Char)
  | jarr (elems : List JVal)
  | jobj (members : List (List Char × JVal))

mutual

/-- Structural size of a JSON value, a lower bound for the parser fuel. -/
def sizeJ : JVal → Nat
  | JVal.jnull => 1
  | JVal.jbool _ => 1
  | JVal.jnum _ _ => 1
  | JVal.jstr _ => 1
  | JVal.jarr xs => 1 + sizeArr xs
  | JVal.jobj kvs => 1 + sizeObj kvs

def sizeArr : List JVal → Nat
  | [] => 0
  | x :: xs => 1 + sizeJ x + sizeArr xs

def sizeObj : List (List Char × JVal) → Nat
  | [] => 0
  | (_, v) :: kvs => 1 + sizeJ v + sizeObj kvs

end

/-- The decimal digit characters. -/
def digitChar : Nat → Char
  | 0 => '0'
  | 1 => '1'
  | 2 => '2'
  | 3 => '3'
  | 4 => '4'
  | 5 => '5'
  | 6 => '6'
  | 7 => '7'
  | 8 => '8'
  | 9 => '9'
  | _ => '0'

/-- Numeric value of a decimal digit character. -/
def charToDigitVal : Char → Nat
  | '0' => 0
  | '1' => 1
  | '2' => 2
  | '3' => 3
  | '4' => 4
  | '5' => 5
  | '6' => 6
  | '7' => 7
  | '8' => 8
  | '9' => 9
  | _ => 0

def isDigitC (c : Char) : Bool := '0' ≤ c && c ≤ '9'

/-- Lowercase hexadecimal digit characters (as in `\u00XX` escapes). -/
def hexDigitChar : Nat → Char
  | 0 => '0'
  | 1 => '1'
  | 2 => '2'
  | 3 => '3'
  | 4 => '4'
  | 5 => '5'
  | 6 => '6'
  | 7 => '7'
  | 8 => '8'
  | 9 => '9'
  | 10 => 'a'
  | 11 => 'b'
  | 12 => 'c'
  | 13 => 'd'
  | 14 => 'e'
  | 15 => 'f'
  | _ => '0'

/-- Value of a lowercase hexadecimal digit character. -/
def hexVal : Char → Nat
  | '0' => 0
  | '1' => 1
  | '2' => 2
  | '3' => 3
  | '4' => 4
  | '5' => 5
  | '6' => 6
  | '7' => 7
  | '8' => 8
  | '9' => 9
  | 'a' => 10
  | 'b' => 11
  | 'c' => 12
  | 'd' => 13
  | 'e' => 14
  | 'f' => 15
  | _ => 0

/-- The little-endian base-10 digits of `n`, zero-padded to at least `len`
digits (so a value below 1 still prints with an integer part `0`). -/
def paddedDigits (n len : Nat) : List Nat :=
  Nat.digits 10 n ++ List.replicate (len - (Nat.digits 10 n).length) 0

/-- Big-endian decimal digit characters of `n`, at least `minLen` of them. -/
def printNat (n minLen : Nat) : List Char :=
  ((paddedDigits n minLen).map digitChar).reverse

/-- The unsigned part of a printed decimal: integer digits, and for `d > 0`
a point followed by exactly `d` fractional digits. -/
def printNumBody (n d : Nat) : List Char :=
  let beDigits := printNat n (d + 1)
  if d = 0 then beDigits
  else beDigits.take (beDigits.length - d) ++ '.' :: beDigits.drop (beDigits.length - d)

/-- Print the decimal `m × 10⁻ᵈ` the way `json.dumps` prints the
corresponding int (`d = 0`) or float: optional sign, integer digits, and for
`d > 0` a point followed by exactly `d` fractional digits. -/
def printNum (m : Int) (d : Nat) : List Char :=
  if m < 0 then '-' :: printNumBody m.natAbs d else printNumBody m.natAbs d

/-- JSON string escaping: `"` and `\` get a backslash, control characters
become `\u00XX`, all other characters are emitted verbatim. -/
def escapeChar (c : Char) : List Char :=
  if c = '"' then ['\\', '"']
  else if c = '\\' then ['\\', '\\']
  else if c.toNat < 32 then
    ['\\', 'u', '0', '0', hexDigitChar (c.toNat / 16), hexDigitChar (c.toNat % 16)]
  else [c]

def escapeStr : List Char → List Char
  | [] => []
  | c :: cs => escapeChar c ++ escapeStr cs

mutual

/-- Render a JSON value in the `json.dumps` default format: separators
`", "` between items and `": "` after keys, no other whitespace. -/
def printJ : JVal → List Char
  | JVal.jnull => 'n' :: 'u' :: 'l' :: 'l' :: []
  | JVal.jbool true => 't' :: 'r' :: 'u' :: 'e' :: []
  | JVal.jbool false => 'f' :: 'a' :: 'l' :: 's' :: 'e' :: []
  | JVal.jnum m d => printNum m d
  | JVal.jstr s => '"' :: (escapeStr s ++ ['"'])
  | JVal.jarr [] => '[' :: [']']
  | JVal.jarr (x :: xs) => '[' :: (printJ x ++ printArrRest xs ++ [']'])
  | JVal.jobj [] => '\x7b' :: ['\x7d']
  | JVal.jobj ((k, v) :: kvs) =>
      '\x7b' :: ('"' :: (escapeStr k ++ '"' :: ':' :: ' ' :: printJ v)
        ++ printObjRest kvs ++ ['\x7d'])

/-- The remaining array elements, each preceded by `", "`. -/
def printArrRest : List JVal → List Char
  | [] => []
  | x :: xs => ',' :: ' ' :: (printJ x ++ printArrRest xs)

/-- The remaining object members, each preceded by `", "`. -/
def printObjRest : List (List Char × JVal) → List Char
  | [] => []
  | (k, v) :: kvs =>
      ',' :: ' ' :: '"' :: (escapeStr k ++ '"' :: ':' :: ' ' :: printJ v
        ++ printObjRest kvs)

end

mutual

/-- Parse a JSON string body after the opening quote, up to and over the
closing quote; handles exactly the escapes the printer emits. -/
def parseStrBody : List Char → Option (List Char × List Char)
  | [] => none
  | c :: rest =>
    if c = '"' then some ([], rest)
    else if c = '\\' then parseEscape rest
    else (parseStrBody rest).map fun p => (c :: p.1, p.2)
termination_by s => s.length

/-- Continuation of `parseStrBody` after a backslash. -/
def parseEscape : List Char → Option (List Char × List Char)
  | '"' :: r => (parseStrBody r).map fun p => ('"' :: p.1, p.2)
  | '\\' :: r => (parseStrBody r).map fun p => ('\\' :: p.1, p.2)
  | 'u' :: h1 :: h2 :: h3 :: h4 :: r =>
    (parseStrBody r).map fun p =>
      (Char.ofNat (((hexVal h1 * 16 + hexVal h2) * 16 + hexVal h3) * 16 +
        hexVal h4) :: p.1, p.2)
  | _ => none
termination_by s => s.length

end

/-- Split off the longest digit-character run. -/
def takeDigitsC : List Char → List Char × List Char
  | [] => ([], [])
  | c :: rest =>
    if isDigitC c then
      let r := takeDigitsC rest
      (c :: r.1, r.2)
    else
      ([], c :: rest)

/-- Numeric value of a big-endian decimal digit-character run. -/
def digitsVal (ds : List Char) : Nat :=
  ds.foldl (fun a c => 10 * a + charToDigitVal c) 0

/-- Parse an unsigned decimal: integer digits and an optional point followed
by fractional digits; yields the combined mantissa and the count of
fractional digits. -/
def parsePosNum (s : List Char) : Option ((Nat × Nat) × List Char) :=
  let p := takeDigitsC s
  if p.1.isEmpty then none
  else
    match p.2 with
    | '.' :: r2 =>
      let q := takeDigitsC r2
      if q.1.isEmpty then none
      else some ((digitsVal (p.1 ++ q.1), q.1.length), q.2)
    | _ => some ((digitsVal p.1, 0), p.2)

/-- Parse a JSON number with optional leading minus. -/
def parseNum (s : List Char) : Option (JVal × List Char) :=
  match s with
  | '-' :: r =>
      (parsePosNum r).map fun x => (JVal.jnum (-(x.1.1 : Int)) x.1.2, x.2)
  | _ =>
      (parsePosNum s).map fun x => (JVal.jnum (x.1.1 : Int) x.1.2, x.2)

/-- Consume an expected literal character sequence. -/
def expectTok : List Char → List Char → Option (List Char)
  | [], s => some s
  | t :: ts, c :: s => if c = t then expectTok ts s else none
  | _ :: _, [] => none

mutual

/-- Parse one JSON value in the format `printJ` emits.  `fuel` bounds the
recursion depth; any fuel above the value's structural size suffices. -/
def parseJ (fuel : Nat) (s : List Char) : Option (JVal × List Char) :=
  match fuel with
  | 0 => none
  | fuel + 1 =>
    match s with
    | [] => none
    | c :: r =>
      if c = 'n' then (expectTok ('u' :: 'l' :: 'l' :: []) r).map fun r' => (JVal.jnull, r')
      else if c = 't' then
        (expectTok ('r' :: 'u' :: 'e' :: []) r).map fun r' => (JVal.jbool true, r')
      else if c = 'f' then
        (expectTok ('a' :: 'l' :: 's' :: 'e' :: []) r).map fun r' => (JVal.jbool false, r')
      else if c = '"' then
        (parseStrBody r).map fun p => (JVal.jstr p.1, p.2)
      else if c = '[' then
        match r with
        | [] => none
        | c2 :: r2 =>
          if c2 = ']' then some (JVal.jarr [], r2)
          else
            (parseJ fuel (c2 :: r2)).bind fun p =>
              (parseArrRest fuel p.2).map fun q => (JVal.jarr (p.1 :: q.1), q.2)
      else if c = '\x7b' then
        match r with
        | [] => none
        | c2 :: r2 =>
          if c2 = '\x7d' then some (JVal.jobj [], r2)
          else if c2 = '"' then
            (parseStrBody r2).bind fun pk =>
              match pk.2 with
              | ':' :: ' ' :: r3 =>
                (parseJ fuel r3).bind fun pv =>
                  (parseObjRest fuel pv.2).map fun q =>
                    (JVal.jobj ((pk.1, pv.1) :: q.1), q.2)
              | _ => none
          else none
      else parseNum (c :: r)

/-- Parse the tail of an array: either the closing bracket or `", "` and a
further element. -/
def parseArrRest (fuel : Nat) (s : List Char) : Option (List JVal × List Char) :=
  match fuel with
  | 0 => none
  | fuel + 1 =>
    match s with
    | ']' :: r => some ([], r)
    | ',' :: ' ' :: r =>
      (parseJ fuel r).bind fun p =>
        (parseArrRest fuel p.2).map fun q => (p.1 :: q.1, q.2)
    | _ => none

/-- Parse the tail of an object: either the closing brace or `", "` and a
further `"key": value` member. -/
def parseObjRest (fuel : Nat) (s : List Char) :
    Option (List (List Char × JVal) × List Char) :=
  match fuel with
  | 0 => none
  | fuel + 1 =>
    match s with
    | '\x7d' :: r => some ([], r)
    | ',' :: ' ' :: '"' :: r =>
      (parseStrBody r).bind fun pk =>
        match pk.2 with
        | ':' :: ' ' :: r2 =>
          (parseJ fuel r2).bind fun pv =>
            (parseObjRest fuel pv.2).map fun q => ((pk.1, pv.1) :: q.1, q.2)
        | _ => none
    | _ => none

end

/-- `json.dumps` of a value in the default format. -/
def dumps (j : JVal) : List Char := printJ j

/-- `json.loads`: parse the whole input as one JSON value. -/
def loads (s : List Char) : Option JVal :=
  match parseJ (s.length + 1) s with
  | some (v, []) => some v
  | _ => none

/-- The `session.update` message `AsyncVoiceLiveSessionResource.update`
builds: `{"type": "session.update", "session": session, "event_id":
event_id}`, with `event_id` possibly `None` (JSON `null`). -/
def sessionUpdateParam (session : JVal) (eventId : Option (List Char)) : JVal :=
  JVal.jobj
    [("type".toList, JVal.jstr "session.update".toList),
     ("session".toList, session),
     ("event_id".toList,
       match eventId with
       | none => JVal.jnull
       | some e => JVal.jstr e)]

/-! ### Digit and number lemmas -/

theorem digitChar_spec (v : Nat) (h : v < 10) :
    isDigitC (digitChar v) = true ∧ charToDigitVal (digitChar v) = v := by
  interval_cases v <;> exact ⟨by decide, by decide⟩

theorem hexVal_hexDigitChar (v : Nat) (h : v < 16) : hexVal (hexDigitChar v) = v := by
  interval_cases v <;> decide

theorem ofDigits_replicate_zero (k : Nat) :
    Nat.ofDigits 10 (List.replicate k 0) = 0 := by
  induction k with
  | zero => rfl
  | succ n ih => simp [List.replicate_succ, Nat.ofDigits_cons, ih]

theorem paddedDigits_lt (n len : Nat) : ∀ v ∈ paddedDigits n len, v < 10 := by
  intro v hv
  rcases List.mem_append.mp hv with h | h
  · exact Nat.digits_lt_base (by norm_num) h
  · rw [List.eq_of_mem_replicate h]
    norm_num

theorem ofDigits_paddedDigits (n len : Nat) :
    Nat.ofDigits 10 (paddedDigits n len) = n := by
  unfold paddedDigits
  rw [Nat.ofDigits_append, Nat.ofDigits_digits, ofDigits_replicate_zero]
  simp

theorem paddedDigits_length (n len : Nat) : len ≤ (paddedDigits n len).length := by
  unfold paddedDigits
  simp [List.length_replicate]
  omega

theorem digitsVal_reverse_map (le : List Nat) (h : ∀ v ∈ le, v < 10) :
    digitsVal ((le.map digitChar).reverse) = Nat.ofDigits 10 le := by
  induction le with
  | nil => rfl
  | cons v vs ih =>
    simp only [List.map_cons, List.reverse_cons]
    unfold digitsVal at *
    rw [List.foldl_append]
    simp only [List.foldl_cons, List.foldl_nil]
    rw [ih fun x hx => h x (List.mem_cons_of_mem _ hx)]
    rw [Nat.ofDigits_cons]
    rw [(digitChar_spec v (h v (List.mem_cons_self _ _))).2]
    ring

theorem printNat_digits (n len : Nat) : ∀ c ∈ printNat n len, isDigitC c = true := by
  intro c hc
  unfold printNat at hc
  rw [List.mem_reverse] at hc
  obtain ⟨v, hv, rfl⟩ := List.mem_map.mp hc
  exact (digitChar_spec v (paddedDigits_lt n len v hv)).1

theorem printNat_length (n len : Nat) : len ≤ (printNat n len).length := by
  unfold printNat
  rw [List.length_reverse, List.length_map]
  exact paddedDigits_length n len

theorem digitsVal_printNat (n len : Nat) : digitsVal (printNat n len) = n := by
  unfold printNat
  rw [digitsVal_reverse_map _ (paddedDigits_lt n len), ofDigits_paddedDigits]

/-- Safe continuation for a printed number: the next character (if any) is
neither a digit nor a decimal point, so the number parser stops exactly at
the printed boundary. -/
def numSafeB : List Char → Bool
  | [] => true
  | c :: _ => !isDigitC c && !(c == '.')

theorem numSafeB_head {c : Char} {t : List Char} (h : numSafeB (c :: t) = true) :
    isDigitC c = false ∧ (c == '.') = false := by
  unfold numSafeB at h
  simp only [Bool.and_eq_true, Bool.not_eq_true'] at h
  exact h

theorem takeDigitsC_split (ds r : List Char) (hds : ∀ c ∈ ds, isDigitC c = true)
    (hr : ∀ c t, r = c :: t → isDigitC c = false) :
    takeDigitsC (ds ++ r) = (ds, r) := by
  induction ds with
  | nil =>
    cases r with
    | nil => rfl
    | cons c t =>
      rw [List.nil_append, takeDigitsC]
      simp [hr c t rfl]
  | cons d ds ih =>
    have hd := hds d (List.mem_cons_self _ _)
    rw [List.cons_append, takeDigitsC]
    simp only [hd, if_true]
    rw [ih fun c hc => hds c (List.mem_cons_of_mem _ hc)]

theorem parsePosNum_printNumBody (n d : Nat) (rest : List Char)
    (hrest : numSafeB rest = true) :
    parsePosNum (printNumBody n d ++ rest) = some ((n, d), rest) := by
  have hrest' : ∀ c t, rest = c :: t → isDigitC c = false := by
    intro c t hct
    subst hct
    exact (numSafeB_head hrest).1
  by_cases hd : d = 0
  · subst hd
    unfold printNumBody
    rw [if_pos rfl]
    unfold parsePosNum
    rw [takeDigitsC_split _ _ (printNat_digits n 1) hrest']
    have hne : (printNat n 1).isEmpty = false := by
      have := printNat_length n 1
      cases hp : printNat n 1 with
      | nil => rw [hp] at this; simp at this
      | cons a b => rfl
    simp only [hne, Bool.false_eq_true, if_false]
    cases rest with
    | nil => simp [digitsVal_printNat]
    | cons c t =>
      have hc := numSafeB_head hrest
      have hcne : c ≠ '.' := by
        intro he
        rw [he] at hc
        simp at hc
      split
      · rename_i heq
        exact absurd (List.head_eq_of_cons_eq heq.symm).symm hcne
      · simp [digitsVal_printNat]
  · unfold printNumBody
    rw [if_neg hd]
    have hlen := printNat_length n (d + 1)
    have htk : ∀ c ∈ (printNat n (d + 1)).take ((printNat n (d + 1)).length - d),
        isDigitC c = true :=
      fun c hc => printNat_digits n (d + 1) c (List.take_subset _ _ hc)
    have hdr : ∀ c ∈ (printNat n (d + 1)).drop ((printNat n (d + 1)).length - d),
        isDigitC c = true :=
      fun c hc => printNat_digits n (d + 1) c (List.drop_subset _ _ hc)
    rw [List.append_assoc, List.cons_append]
    unfold parsePosNum
    rw [takeDigitsC_split _ _ htk (by
      intro c t hct
      rw [List.cons_eq_cons] at hct
      rw [← hct.1]
      decide)]
    have htklen : ((printNat n (d + 1)).take ((printNat n (d + 1)).length - d)).length
        = (printNat n (d + 1)).length - d := by
      rw [List.length_take]
      omega
    have hne : ((printNat n (d + 1)).take ((printNat n (d + 1)).length - d)).isEmpty
        = false := by
      cases hp : (printNat n (d + 1)).take ((printNat n (d + 1)).length - d) with
      | nil =>
        rw [hp] at htklen
        simp at htklen
        omega
      | cons a b => rfl
    simp only [hne, Bool.false_eq_true, if_false]
    show (match ('.' :: ((printNat n (d + 1)).drop ((printNat n (d + 1)).length - d)
        ++ rest) : List Char) with
      | '.' :: r2 =>
        let q := takeDigitsC r2
        if q.1.isEmpty then none
        else some ((digitsVal ((printNat n (d + 1)).take
            ((printNat n (d + 1)).length - d) ++ q.1), q.1.length), q.2)
      | _ => some ((digitsVal ((printNat n (d + 1)).take
          ((printNat n (d + 1)).length - d)), 0),
          '.' :: ((printNat n (d + 1)).drop ((printNat n (d + 1)).length - d)
            ++ rest))) = some ((n, d), rest)
    simp only []
    rw [takeDigitsC_split _ _ hdr hrest']
    have hdrlen : ((printNat n (d + 1)).drop ((printNat n (d + 1)).length - d)).length
        = d := by
      rw [List.length_drop]
      omega
    have hne2 : ((printNat n (d + 1)).drop ((printNat n (d + 1)).length - d)).isEmpty
        = false := by
      cases hp : (printNat n (d + 1)).drop ((printNat n (d + 1)).length - d) with
      | nil =>
        rw [hp] at hdrlen
        simp at hdrlen
        omega
      | cons a b => rfl
    simp only [hne2, Bool.false_eq_true, if_false]
    rw [List.take_append_drop, digitsVal_printNat, hdrlen]

theorem printNumBody_head (n d : Nat) :
    ∃ c t, printNumBody n d = c :: t ∧ isDigitC c = true := by
  have hlen := printNat_length n (d + 1)
  obtain ⟨c, t, hct⟩ : ∃ c t, printNat n (d + 1) = c :: t := by
    cases hp : printNat n (d + 1) with
    | nil =>
      rw [hp] at hlen
      simp at hlen
    | cons a b => exact ⟨a, b, rfl⟩
  have hcd : isDigitC c = true :=
    printNat_digits n (d + 1) c (hct ▸ List.mem_cons_self _ _)
  unfold printNumBody
  by_cases hd : d = 0
  · subst hd
    rw [if_pos rfl, hct]
    exact ⟨c, t, rfl, hcd⟩
  · rw [if_neg hd]
    obtain ⟨k, hk⟩ : ∃ k, (printNat n (d + 1)).length - d = k + 1 := by
      refine ⟨(printNat n (d + 1)).length - d - 1, ?_⟩
      omega
    rw [hk, hct, List.take_succ_cons, List.cons_append]
    exact ⟨c, _, rfl, hcd⟩

/-- A decimal digit character is none of the characters the value dispatch
tests for, nor a closing bracket, sign or point. -/
theorem digit_not_special (c : Char) (h : isDigitC c = true) :
    (c = 'n' ∨ c = 't' ∨ c = 'f' ∨ c = '"' ∨ c = '[' ∨ c = '\x7b' ∨ c = ']' ∨
        c = '-' ∨ c = '.') → False := by
  rintro (rfl | rfl | rfl | rfl | rfl | rfl | rfl | rfl | rfl) <;>
    exact absurd h (by decide)

theorem parseNum_printNum (m : Int) (d : Nat) (rest : List Char)
    (hrest : numSafeB rest = true) :
    parseNum (printNum m d ++ rest) = some (JVal.jnum m d, rest) := by
  by_cases hm : m < 0
  · unfold printNum
    rw [if_pos hm, List.cons_append]
    have hred : parseNum ('-' :: (printNumBody m.natAbs d ++ rest)) =
        (parsePosNum (printNumBody m.natAbs d ++ rest)).map
          fun x => (JVal.jnum (-(x.1.1 : Int)) x.1.2, x.2) := rfl
    rw [hred, parsePosNum_printNumBody _ _ _ hrest]
    show some (JVal.jnum (-((m.natAbs : Nat) : Int)) d, rest) =
      some (JVal.jnum m d, rest)
    have hmm : -((m.natAbs : Nat) : Int) = m := by omega
    rw [hmm]
  · unfold printNum
    rw [if_neg hm]
    obtain ⟨c, t, hct, hcd⟩ := printNumBody_head m.natAbs d
    rw [hct, List.cons_append]
    unfold parseNum
    split
    · rename_i heq
      have hcm : c = '-' := (List.cons_eq_cons.mp heq.symm).1.symm
      exact (digit_not_special c hcd (by tauto)).elim
    · rw [← List.cons_append, ← hct, parsePosNum_printNumBody _ _ _ hrest]
      show some (JVal.jnum ((m.natAbs : Nat) : Int) d, rest) =
        some (JVal.jnum m d, rest)
      have hmm : ((m.natAbs : Nat) : Int) = m := by omega
      rw [hmm]

theorem parseStrBody_escape (s rest : List Char) :
    parseStrBody (escapeStr s ++ '"' :: rest) = some (s, rest) := by
  induction s with
  | nil =>
    rw [show escapeStr [] ++ '"' :: rest = '"' :: rest from rfl]
    rw [parseStrBody]
    simp
  | cons c cs ih =>
    show parseStrBody ((escapeChar c ++ escapeStr cs) ++ '"' :: rest) = _
    rw [List.append_assoc]
    unfold escapeChar
    by_cases h1 : c = '"'
    · subst h1
      rw [if_pos rfl]
      rw [show (['\\', '"'] : List Char) ++ (escapeStr cs ++ '"' :: rest) =
        '\\' :: '"' :: (escapeStr cs ++ '"' :: rest) from rfl]
      rw [parseStrBody]
      rw [if_neg (by decide), if_pos rfl]
      rw [parseEscape, ih]
      rfl
    · rw [if_neg h1]
      by_cases h2 : c = '\\'
      · subst h2
        rw [if_pos rfl]
        rw [show (['\\', '\\'] : List Char) ++ (escapeStr cs ++ '"' :: rest) =
          '\\' :: '\\' :: (escapeStr cs ++ '"' :: rest) from rfl]
        rw [parseStrBody]
        rw [if_neg (by decide), if_pos rfl]
        rw [parseEscape, ih]
        rfl
      · rw [if_neg h2]
        by_cases h3 : c.toNat < 32
        · rw [if_pos h3]
          rw [show (['\\', 'u', '0', '0', hexDigitChar (c.toNat / 16),
              hexDigitChar (c.toNat % 16)] : List Char) ++
              (escapeStr cs ++ '"' :: rest) =
            '\\' :: 'u' :: '0' :: '0' :: hexDigitChar (c.toNat / 16) ::
              hexDigitChar (c.toNat % 16) :: (escapeStr cs ++ '"' :: rest)
            from rfl]
          rw [parseStrBody]
          rw [if_neg (by decide), if_pos rfl]
          rw [parseEscape, ih]
          have hn : ((hexVal '0' * 16 + hexVal '0') * 16 +
              hexVal (hexDigitChar (c.toNat / 16))) * 16 +
                hexVal (hexDigitChar (c.toNat % 16)) = c.toNat := by
            rw [hexVal_hexDigitChar _ (by omega),
              hexVal_hexDigitChar _ (Nat.mod_lt _ (by norm_num))]
            have h0 : hexVal '0' = 0 := rfl
            rw [h0]
            omega
          simp only [Option.map_some']
          rw [hn, Char.ofNat_toNat]
        · rw [if_neg h3]
          rw [List.singleton_append]
          rw [parseStrBody]
          rw [if_neg h1, if_neg h2, ih]
          rfl

theorem digit_beq_rbracket (c : Char) (h : isDigitC c = true) :
    (c == ']') = false := by
  cases hb : c == ']' with
  | false => rfl
  | true =>
    have : c = ']' := beq_iff_eq.mp hb
    exact (digit_not_special c h (by tauto)).elim

/-- Every printed JSON value is nonempty and never starts with a closing
bracket, so the array-element dispatch always takes the element branch. -/
theorem printJ_head (j : JVal) :
    ∃ c t, printJ j = c :: t ∧ (c == ']') = false := by
  cases j with
  | jnull => exact ⟨'n', _, by rw [printJ], by decide⟩
  | jbool b =>
    cases b with
    | true => exact ⟨'t', _, by rw [printJ], by decide⟩
    | false => exact ⟨'f', _, by rw [printJ], by decide⟩
  | jnum m d =>
    by_cases hm : m < 0
    · refine ⟨'-', printNumBody m.natAbs d, ?_, by decide⟩
      rw [printJ]
      unfold printNum
      rw [if_pos hm]
    · obtain ⟨c, t, hct, hcd⟩ := printNumBody_head m.natAbs d
      refine ⟨c, t, ?_, digit_beq_rbracket c hcd⟩
      rw [printJ]
      unfold printNum
      rw [if_neg hm, hct]
  | jstr str => exact ⟨'"', _, by rw [printJ], by decide⟩
  | jarr xs =>
    cases xs with
    | nil => exact ⟨'[', _, by rw [printJ], by decide⟩
    | cons x xs => exact ⟨'[', _, by rw [printJ], by decide⟩
  | jobj kvs =>
    cases kvs with
    | nil => exact ⟨'\x7b', _, by rw [printJ], by decide⟩
    | cons kv kvs =>
      obtain ⟨k, v⟩ := kv
      exact ⟨'\x7b', _, by rw [printJ], by decide⟩

mutual

theorem sizeJ_le_printJ_length : ∀ j : JVal, sizeJ j ≤ (printJ j).length
  | JVal.jnull => by rw [printJ, sizeJ]; decide
  | JVal.jbool b => by
    cases b with
    | true => rw [printJ, sizeJ]; decide
    | false => rw [printJ, sizeJ]; decide
  | JVal.jnum m d => by
    rw [printJ, sizeJ]
    obtain ⟨c, t, hct, _⟩ := printJ_head (JVal.jnum m d)
    rw [printJ] at hct
    rw [hct]
    simp
  | JVal.jstr str => by
    rw [printJ, sizeJ]
    simp
  | JVal.jarr [] => by rw [printJ, sizeJ, sizeArr]; decide
  | JVal.jarr (x :: xs) => by
    have h1 := sizeJ_le_printJ_length x
    have h2 := sizeArr_le_printArrRest_length xs
    rw [printJ, sizeJ, sizeArr]
    simp only [List.length_cons, List.length_append]
    omega
  | JVal.jobj [] => by rw [printJ, sizeJ, sizeObj]; decide
  | JVal.jobj ((k, v) :: kvs) => by
    have h1 := sizeJ_le_printJ_length v
    have h2 := sizeObj_le_printObjRest_length kvs
    rw [printJ, sizeJ, sizeObj]
    simp only [List.length_cons, List.length_append]
    omega

theorem sizeArr_le_printArrRest_length : ∀ xs : List JVal,
    sizeArr xs ≤ (printArrRest xs).length
  | [] => by rw [printArrRest, sizeArr]; decide
  | x :: xs => by
    have h1 := sizeJ_le_printJ_length x
    have h2 := sizeArr_le_printArrRest_length xs
    rw [printArrRest, sizeArr]
    simp only [List.length_cons, List.length_append]
    omega

theorem sizeObj_le_printObjRest_length : ∀ kvs : List (List Char × JVal),
    sizeObj kvs ≤ (printObjRest kvs).length
  | [] => by rw [printObjRest, sizeObj]; decide
  | (k, v) :: kvs => by
    have h1 := sizeJ_le_printJ_length v
    have h2 := sizeObj_le_printObjRest_length kvs
    rw [printObjRest, sizeObj]
    simp only [List.length_cons, List.length_append]
    omega

end

theorem numSafeB_printArrRest (xs : List JVal) (rest : List Char) :
    numSafeB (printArrRest xs ++ ']' :: rest) = true := by
  cases xs with
  | nil =>
    rw [printArrRest, List.nil_append]
    simp [numSafeB, isDigitC]
  | cons y ys =>
    rw [printArrRest, List.cons_append]
    simp [numSafeB, isDigitC]

theorem numSafeB_printObjRest (kvs : List (List Char × JVal)) (rest : List Char) :
    numSafeB (printObjRest kvs ++ '\x7d' :: rest) = true := by
  cases kvs with
  | nil =>
    rw [printObjRest, List.nil_append]
    simp [numSafeB, isDigitC]
  | cons kv kvs =>
    obtain ⟨k, v⟩ := kv
    rw [printObjRest, List.cons_append]
    simp [numSafeB, isDigitC]

/-- The parser is a left inverse of the printer, given fuel above the
structural size: one statement per mutual parsing function, proved together
by induction on the fuel. -/
theorem parse_printJ (fuel : Nat) :
    (∀ j rest, sizeJ j < fuel → numSafeB rest = true →
      parseJ fuel (printJ j ++ rest) = some (j, rest)) ∧
    (∀ xs rest, sizeArr xs < fuel →
      parseArrRest fuel (printArrRest xs ++ ']' :: rest) = some (xs, rest)) ∧
    (∀ kvs rest, sizeObj kvs < fuel →
      parseObjRest fuel (printObjRest kvs ++ '\x7d' :: rest) = some (kvs, rest)) := by
  induction fuel with
  | zero =>
    refine ⟨?_, ?_, ?_⟩ <;> intro _ _ h <;> omega
  | succ fuel ih =>
    obtain ⟨ihJ, ihA, ihO⟩ := ih
    refine ⟨?_, ?_, ?_⟩
    · intro j rest hsz hrest
      cases j with
      | jnull =>
        rw [printJ]
        rw [show ('n' :: 'u' :: 'l' :: 'l' :: [] : List Char) ++ rest =
          'n' :: ('u' :: 'l' :: 'l' :: rest) from rfl]
        rw [parseJ.eq_def]
        simp [expectTok]
      | jbool b =>
        cases b with
        | true =>
          rw [printJ]
          rw [show ('t' :: 'r' :: 'u' :: 'e' :: [] : List Char) ++ rest =
            't' :: ('r' :: 'u' :: 'e' :: rest) from rfl]
          rw [parseJ.eq_def]
          simp [expectTok]
        | false =>
          rw [printJ]
          rw [show ('f' :: 'a' :: 'l' :: 's' :: 'e' :: [] : List Char) ++ rest =
            'f' :: ('a' :: 'l' :: 's' :: 'e' :: rest) from rfl]
          rw [parseJ.eq_def]
          simp [expectTok]
      | jnum m d =>
        rw [printJ]
        by_cases hm : m < 0
        · have hneg : printNum m d = '-' :: printNumBody m.natAbs d := by
            unfold printNum
            rw [if_pos hm]
          rw [hneg, List.cons_append, parseJ.eq_def]
          simp only []
          rw [if_neg (by decide), if_neg (by decide), if_neg (by decide),
            if_neg (by decide), if_neg (by decide), if_neg (by decide)]
          rw [← List.cons_append, ← hneg]
          exact parseNum_printNum m d rest hrest
        · obtain ⟨c, t, hct, hcd⟩ := printNumBody_head m.natAbs d
          have hpn : printNum m d = c :: t := by
            unfold printNum
            rw [if_neg hm, hct]
          rw [hpn, List.cons_append, parseJ.eq_def]
          simp only []
          rw [if_neg (by intro he; exact digit_not_special c hcd (by tauto)),
            if_neg (by intro he; exact digit_not_special c hcd (by tauto)),
            if_neg (by intro he; exact digit_not_special c hcd (by tauto)),
            if_neg (by intro he; exact digit_not_special c hcd (by tauto)),
            if_neg (by intro he; exact digit_not_special c hcd (by tauto)),
            if_neg (by intro he; exact digit_not_special c hcd (by tauto))]
          rw [← List.cons_append, ← hpn]
          exact parseNum_printNum m d rest hrest
      | jstr str =>
        rw [printJ]
        rw [show ('"' :: (escapeStr str ++ ['"'])) ++ rest =
          '"' :: (escapeStr str ++ '"' :: rest) from by simp]
        rw [parseJ.eq_def]
        simp only []
        rw [if_pos trivial, parseStrBody_escape]
        rfl
      | jarr xs =>
        cases xs with
        | nil =>
          rw [printJ]
          rw [show ('[' :: [']'] : List Char) ++ rest = '[' :: (']' :: rest)
            from rfl]
          rw [parseJ.eq_def]
          simp
        | cons x xs =>
          rw [sizeJ, sizeArr] at hsz
          rw [printJ]
          rw [show ('[' :: (printJ x ++ printArrRest xs ++ [']'])) ++ rest =
            '[' :: (printJ x ++ (printArrRest xs ++ ']' :: rest)) from by simp]
          obtain ⟨c, t, hct, hcb⟩ := printJ_head x
          have hcne : c ≠ ']' := by
            intro he
            rw [he] at hcb
            simp at hcb
          rw [hct, List.cons_append, parseJ.eq_def]
          simp only []
          rw [if_pos trivial, if_neg hcne]
          rw [← List.cons_append, ← hct]
          rw [ihJ x (printArrRest xs ++ ']' :: rest) (by omega)
            (numSafeB_printArrRest xs rest)]
          rw [Option.some_bind]
          rw [ihA xs rest (by omega)]
          rfl
      | jobj kvs =>
        cases kvs with
        | nil =>
          rw [printJ]
          rw [show ('\x7b' :: ['\x7d'] : List Char) ++ rest =
            '\x7b' :: ('\x7d' :: rest) from rfl]
          rw [parseJ.eq_def]
          simp
        | cons kv kvs =>
          obtain ⟨k, v⟩ := kv
          rw [sizeJ, sizeObj] at hsz
          rw [printJ]
          rw [show ('\x7b' :: ('"' :: (escapeStr k ++ '"' :: ':' :: ' ' :: printJ v)
              ++ printObjRest kvs ++ ['\x7d'])) ++ rest =
            '\x7b' :: ('"' :: (escapeStr k ++ '"' ::
              (':' :: ' ' :: (printJ v ++ (printObjRest kvs ++ '\x7d' :: rest)))))
            from by simp]
          rw [parseJ.eq_def]
          simp only []
          rw [if_pos trivial, if_neg (by decide), if_pos trivial]
          rw [parseStrBody_escape]
          rw [Option.some_bind]
          simp only []
          rw [ihJ v (printObjRest kvs ++ '\x7d' :: rest) (by omega)
            (numSafeB_printObjRest kvs rest)]
          rw [Option.some_bind]
          rw [ihO kvs rest (by omega)]
          rfl
    · intro xs rest hsz
      cases xs with
      | nil =>
        rw [printArrRest, List.nil_append, parseArrRest.eq_def]
        simp
      | cons y ys =>
        rw [sizeArr] at hsz
        rw [printArrRest]
        rw [show (',' :: ' ' :: (printJ y ++ printArrRest ys)) ++ ']' :: rest =
          ',' :: ' ' :: (printJ y ++ (printArrRest ys ++ ']' :: rest))
          from by simp]
        rw [parseArrRest.eq_def]
        simp only []
        rw [ihJ y (printArrRest ys ++ ']' :: rest) (by omega)
          (numSafeB_printArrRest ys rest)]
        rw [Option.some_bind]
        rw [ihA ys rest (by omega)]
        rfl
    · intro kvs rest hsz
      cases kvs with
      | nil =>
        rw [printObjRest, List.nil_append, parseObjRest.eq_def]
        simp
      | cons kv kvs =>
        obtain ⟨k, v⟩ := kv
        rw [sizeObj] at hsz
        rw [printObjRest]
        rw [show (',' :: ' ' :: '"' :: (escapeStr k ++ '"' :: ':' :: ' ' :: printJ v
            ++ printObjRest kvs)) ++ '\x7d' :: rest =
          ',' :: ' ' :: '"' :: (escapeStr k ++ '"' ::
            (':' :: ' ' :: (printJ v ++ (printObjRest kvs ++ '\x7d' :: rest))))
          from by simp]
        rw [parseObjRest.eq_def]
        simp only []
        rw [parseStrBody_escape]
        rw [Option.some_bind]
        simp only []
        rw [ihJ v (printObjRest kvs ++ '\x7d' :: rest) (by omega)
          (numSafeB_printObjRest kvs rest)]
        rw [Option.some_bind]
        rw [ihO kvs rest (by omega)]
        rfl

/-- **C8.** For every session configuration record (any JSON value) and any
event id, serializing the `session.update` message exactly as
`AsyncVoiceLiveSessionResource.update` builds it — a JSON object with the
`type` field `"session.update"`, the `session` record and the `event_id` —
and then parsing the resulting JSON text yields precisely the structure that
was serialized, field for field. -/
theorem C8_session_update_roundtrip (session : JVal) (eventId : Option (List Char)) :
    loads (dumps (sessionUpdateParam session eventId)) =
      some (sessionUpdateParam session eventId) := by
  unfold loads dumps
  have hsz : sizeJ (sessionUpdateParam session eventId) <
      (printJ (sessionUpdateParam session eventId)).length + 1 := by
    have := sizeJ_le_printJ_length (sessionUpdateParam session eventId)
    omega
  have h := (parse_printJ ((printJ (sessionUpdateParam session eventId)).length + 1)).1
    (sessionUpdateParam session eventId) [] hsz rfl
  rw [List.append_nil] at h
  rw [h]

/-- A concrete client configured with a token credential and a foundry
credential, as `AgentVoice.connect` does. -/
def c10SampleClient : VoiceLiveClient :=
  { apiKey := none
    azureEndpoint := "https://example.cognitiveservices.azure.com"
    projectName := some "myproj"
    agentId := some "asst_demo"
    apiVersion := some "2025-05-01-preview"
    azureAdTokenCredential := some ⟨"entratok123"⟩
    foundryCredential := some ⟨"foundrytok456"⟩
    connection := none
    token := some "entratok123"
    foundryToken := some "foundrytok456" }

/-- **C10 witness**: on the sample client, `connect` succeeds and its URL
carries both tokens as plaintext query parameters while the bearer token is
also in the `Authorization` header. -/
theorem C10_url_embeds_tokens_witness :
    ∃ (s' : VoiceLiveClient) (conn : ConnectionInfo),
      connectClient c10SampleClient (some "gpt-4o") none "req-1" =
          Except.ok (s', conn) ∧
        (∃ pre post, conn.url =
          pre ++ ("Authorization=Bearer+".toList ++ "entratok123".toList) ++ post) ∧
        (∃ pre post, conn.url =
          pre ++ ("agent_access_token=".toList ++ "foundrytok456".toList) ++ post) ∧
        ("Authorization", some ("Bearer " ++ "entratok123")) ∈ conn.headers :=
  C10_url_embeds_tokens c10SampleClient "gpt-4o" none "req-1" "entratok123"
    "foundrytok456" "example.cognitiveservices.azure.com".toList rfl (by decide)
    rfl (by decide) rfl (by decide) (by decide)

end VoiceLive
